import Mathlib

/-!
Shallow embedding of the Result / ResultVal error-propagation system of
`src/core/hle/result.h` (Citra/yuzu-style HLE result codes).

Machine integers (`u32`) are modelled as `Nat`; every operation of the
source that masks or truncates does so explicitly here, so values stay in
range exactly where the C++ code keeps them in range.
-/

/-- `ErrorModule` is `enum class ErrorModule : u32`; we model it by its
underlying 32-bit value. -/
abbrev ErrorModule := Nat

def ErrorModule.Common : ErrorModule := 0
def ErrorModule.Kernel : ErrorModule := 1
def ErrorModule.FS : ErrorModule := 2
def ErrorModule.OS : ErrorModule := 3
def ErrorModule.HTCS : ErrorModule := 4
def ErrorModule.NCM : ErrorModule := 5
def ErrorModule.DD : ErrorModule := 6
def ErrorModule.LR : ErrorModule := 8
def ErrorModule.Loader : ErrorModule := 9
def ErrorModule.CMIF : ErrorModule := 10
def ErrorModule.HIPC : ErrorModule := 11
def ErrorModule.PM : ErrorModule := 15
def ErrorModule.NS : ErrorModule := 16
def ErrorModule.HTC : ErrorModule := 18
def ErrorModule.NCMContent : ErrorModule := 20
def ErrorModule.SM : ErrorModule := 21
def ErrorModule.RO : ErrorModule := 22
def ErrorModule.SDMMC : ErrorModule := 24
def ErrorModule.OVLN : ErrorModule := 25
def ErrorModule.SPL : ErrorModule := 26
def ErrorModule.GeneralWebApplet : ErrorModule := 800
def ErrorModule.WifiWebAuthApplet : ErrorModule := 809
def ErrorModule.WhitelistedApplet : ErrorModule := 810
def ErrorModule.ShopN : ErrorModule := 811

/-- `BitField<position, bits, T>::FormatValue(value)`:
`(StorageType(value) << position) & mask` with
`mask = ((1 << bits) - 1) << position`. -/
def BitField.FormatValue (position bits value : Nat) : Nat :=
  (value <<< position) &&& (((1 <<< bits) - 1) <<< position)

/-- `BitField<position, bits, T>::Value()` (unsigned extraction):
`(storage & mask) >> position`. -/
def BitField.Value (position bits storage : Nat) : Nat :=
  (storage &&& (((1 <<< bits) - 1) <<< position)) >>> position

/-- `union Result { u32 raw; BitField<0,9,ErrorModule> module;
BitField<9,13,u32> description; }` — the union overlays the bit-fields on
`raw`, so the state is the single 32-bit word. -/
structure Result where
  raw : Nat
deriving DecidableEq

/-- `constexpr Result(ErrorModule module_, u32 description_)
  : raw(module.FormatValue(module_) | description.FormatValue(description_))`
(the `ErrorModule` argument is its underlying `u32` value). -/
def Result.ofFields (module_ : Nat) (description_ : Nat) : Result :=
  ⟨BitField.FormatValue 0 9 module_ ||| BitField.FormatValue 9 13 description_⟩

/-- Reading the `module` bit-field: `BitField<0,9,ErrorModule>::Value()`,
as its underlying `u32` value. -/
def Result.module (r : Result) : Nat :=
  BitField.Value 0 9 r.raw

/-- Reading the `description` bit-field: `BitField<9,13,u32>::Value()`. -/
def Result.description (r : Result) : Nat :=
  BitField.Value 9 13 r.raw

/-- `constexpr bool IsSuccess() const { return raw == 0; }` -/
def Result.IsSuccess (r : Result) : Bool :=
  r.raw == 0

/-- `constexpr bool IsError() const { return !IsSuccess(); }` -/
def Result.IsError (r : Result) : Bool :=
  !r.IsSuccess

/-- `constexpr bool IsFailure() const { return !IsSuccess(); }` -/
def Result.IsFailure (r : Result) : Bool :=
  !r.IsSuccess

/-- `constexpr u32 GetInnerValue() const
{ return static_cast<u32>(module.Value()) | (description << module.bits); }` -/
def Result.GetInnerValue (r : Result) : Nat :=
  r.module ||| (r.description <<< 9)

/-- `constexpr bool Includes(Result result) const
{ return GetInnerValue() == result.GetInnerValue(); }` -/
def Result.Includes (r result : Result) : Bool :=
  r.GetInnerValue == result.GetInnerValue

/-- `constexpr Result ResultSuccess(0);` -/
def ResultSuccess : Result := ⟨0⟩

/-- `constexpr Result ResultUnknown(UINT32_MAX);` -/
def ResultUnknown : Result := ⟨4294967295⟩

/-- `class ResultRange { Result code; u32 description_end; }` -/
structure ResultRange where
  code : Result
  description_end : Nat
deriving DecidableEq

/-- `consteval ResultRange(ErrorModule module, u32 description_start,
u32 description_end_) : code{module, description_start},
description_end{description_end_}`. -/
def ResultRange.ofFields (module_ : Nat)
    (description_start description_end_ : Nat) : ResultRange :=
  ⟨Result.ofFields module_ description_start, description_end_⟩

/-- `constexpr operator Result() const { return code; }` -/
def ResultRange.toResult (r : ResultRange) : Result :=
  r.code

/-- `constexpr bool Includes(Result other) const
{ return code.module == other.module && code.description <= other.description
&& other.description <= description_end; }` -/
def ResultRange.Includes (r : ResultRange) (other : Result) : Bool :=
  r.code.module == other.module &&
    decide (r.code.description ≤ other.description) &&
    decide (other.description ≤ r.description_end)

/-- `ResultVal<T>` wraps `Common::Expected<T, Result>`: either a stored
value of type `T` or a stored (unexpected) `Result`. -/
inductive ResultVal (T : Type) where
  | value (val : T)
  | error (code : Result)
deriving DecidableEq

/-- `constexpr ResultVal(Result code) : expected{Common::Unexpected(code)}` —
stores the given code in the error slot unconditionally. -/
def ResultVal.ofResult {T : Type} (code : Result) : ResultVal T :=
  .error code

/-- `constexpr ResultVal(ResultRange range) : expected{Common::Unexpected(range)}`
— the range converts to its canonical `Result` on the way in. -/
def ResultVal.ofRange {T : Type} (range : ResultRange) : ResultVal T :=
  .error range.toResult

/-- `template <typename U> constexpr ResultVal(U&& val) : expected{val}` -/
def ResultVal.ofValue {T : Type} (val : T) : ResultVal T :=
  .value val

/-- `constexpr explicit operator bool() const { return expected.has_value(); }` -/
def ResultVal.toBool {T : Type} : ResultVal T → Bool
  | .value _ => true
  | .error _ => false

/-- `constexpr Result Code() const
{ return expected.has_value() ? ResultSuccess : expected.error(); }` -/
def ResultVal.Code {T : Type} : ResultVal T → Result
  | .value _ => ResultSuccess
  | .error code => code

/-- `constexpr bool Succeeded() const { return expected.has_value(); }` -/
def ResultVal.Succeeded {T : Type} : ResultVal T → Bool
  | .value _ => true
  | .error _ => false

/-- `constexpr bool Failed() const { return !expected.has_value(); }` -/
def ResultVal.Failed {T : Type} (rv : ResultVal T) : Bool :=
  !rv.Succeeded

/-- `constexpr T& Unwrap() { ASSERT_MSG(Succeeded(), "Tried to Unwrap empty
ResultVal"); return expected.value(); }` — the assertion failure on the
error state is modelled as `none`. -/
def ResultVal.Unwrap {T : Type} : ResultVal T → Option T
  | .value val => some val
  | .error _ => none

/-- `template <typename U> constexpr T ValueOr(U&& v) const
{ return expected.value_or(v); }` -/
def ResultVal.ValueOr {T : Type} (rv : ResultVal T) (v : T) : T :=
  match rv with
  | .value val => val
  | .error _ => v

/-- `#define R_SUCCEEDED(res) (static_cast<Result>(res).IsSuccess())` -/
def R_SUCCEEDED (res : Result) : Bool :=
  res.IsSuccess

/-- `#define R_FAILED(res) (static_cast<Result>(res).IsFailure())` -/
def R_FAILED (res : Result) : Bool :=
  res.IsFailure

/-- `R_TRY(res_expr)` followed by the rest of the enclosing function body:
evaluates `res_expr`; if `R_FAILED` on it, throws (returns) that result,
otherwise the rest of the body runs.  `rest` is thunked so that a theorem
can state that the continuation is irrelevant on the failure path. -/
def R_TRY (res_expr : Result) (rest : Unit → Result) : Result :=
  if R_FAILED res_expr then res_expr else rest ()

/-- `CASCADE_CODE(source)` followed by the rest of the enclosing function
body: returns `source` if `source.IsError()`, else the rest runs. -/
def CASCADE_CODE (source : Result) (rest : Unit → Result) : Result :=
  if source.IsError then source else rest ()

/-- `CASCADE_RESULT(target, source)` followed by the rest of the enclosing
function body: if `source.Failed()` the enclosing function returns
`source.Code()`; otherwise `target` is bound to the moved-out value
`*source` and the rest of the body runs with it. -/
def CASCADE_RESULT {T : Type} (source : ResultVal T) (rest : T → Result) :
    Result :=
  match source with
  | .error _ => source.Code
  | .value val => rest val

/-- `ResultImpl::EvaluateResultSuccess` -/
def ResultImpl.EvaluateResultSuccess (r : Result) : Bool :=
  R_SUCCEEDED r

/-- `ResultImpl::EvaluateResultFailure` -/
def ResultImpl.EvaluateResultFailure (r : Result) : Bool :=
  R_FAILED r

/-- Polarity of a scoped result guard: which `EvaluateResult` predicate the
`ScopedResultGuard` was instantiated with. -/
inductive GuardKind where
  | onFailure
  | onSuccess
deriving DecidableEq

/-- The predicate a guard's destructor evaluates on its referenced cell. -/
def GuardKind.pred : GuardKind → Result → Bool
  | .onFailure, r => ResultImpl.EvaluateResultFailure r
  | .onSuccess, r => ResultImpl.EvaluateResultSuccess r

/--
A function body built from the control-flow macros.  Every terminating
path ends in an `R_RETURN` (`R_THROW` expands to `R_RETURN`); a body is a
straight-line sequence of macro uses, branches coming from `R_TRY` /
`R_UNLESS` conditions.

- `rret r` — `R_RETURN(r_expr)` where `r_expr` evaluates to `r`.
- `reg k rest` — `ON_RESULT_FAILURE { ... };` / `ON_RESULT_SUCCESS { ... };`
  (i.e. `DECLARE_CURRENT_RESULT_REFERENCE_AND_STORAGE` plus registration of
  a `ScopedResultGuard` on the just-declared reference), then `rest`.
- `rtry r rest` — `R_TRY(r_expr); rest`.
- `runless c e rest` — `R_UNLESS(c_expr, e); rest`.
-/
inductive Prog where
  | rret (r : Result)
  | reg (k : GuardKind) (rest : Prog)
  | rtry (r : Result) (rest : Prog)
  | runless (c : Bool) (e : Result) (rest : Prog)
deriving DecidableEq

/-- A registered `ScopedResultGuard`: its polarity and the index of the
storage cell its `Result& m_ref` refers to. -/
structure GuardEntry where
  kind : GuardKind
  cell : Nat
deriving DecidableEq

/--
The local storage of one function activation.

`cells` holds every `Result` object the macros have declared, in
declaration order (each `DECLARE_CURRENT_RESULT_REFERENCE_AND_STORAGE`
appends its `PrevRef_N` copy and its `__tmp_result_N`).  `cur` is the cell
the innermost visible `__TmpCurrentResultReference` is bound to; `none`
means the only visible declaration is the global
`constexpr inline Result __TmpCurrentResultReference = ResultSuccess`
(a `const Result`, not a `Result&`).  `guards` lists the registered
scoped guards in registration order.
-/
structure ExecState where
  cells : List Result
  cur : Option Nat
  guards : List GuardEntry
deriving DecidableEq

/-- State of a fresh function activation. -/
def ExecState.init : ExecState :=
  ⟨[], none, []⟩

/-- The value currently held by `__TmpCurrentResultReference`. -/
def ExecState.read (st : ExecState) : Result :=
  match st.cur with
  | none => ResultSuccess
  | some i => st.cells.getD i ResultSuccess

/-- One `R_RETURN(r)`: store `r` through the current result reference
(no-op when the reference is the global `const Result`), then return `r`. -/
def rretStep (r : Result) (st : ExecState) : Result × ExecState :=
  match st.cur with
  | none => (r, st)
  | some i => (r, { st with cells := st.cells.set i r })

/--
Runs a function body.  Returns the value handed to `return` together with
the final local storage (read by the guard destructors at scope exit).

- `rret`: `R_RETURN` calls
  `ResultImpl::UpdateCurrentResultReference<decltype(__TmpCurrentResultReference)>`;
  for the local `Result&` that assigns the result to the referenced cell,
  for the global `const Result` the specialization does nothing.
- `reg`: `DECLARE_CURRENT_RESULT_REFERENCE_AND_STORAGE` computes
  `HasPrevRef_N = std::same_as<decltype(__TmpCurrentResultReference), Result&>`,
  declares `Result PrevRef_N = __TmpCurrentResultReference` (a copy of the
  current reference's value) and `Result __tmp_result_N = ResultSuccess`,
  then rebinds `Result& __TmpCurrentResultReference` to `PrevRef_N` when
  `HasPrevRef_N` and to `__tmp_result_N` otherwise; the guard is registered
  on the new reference.
- `rtry` / `runless`: expand to `R_THROW` (= `R_RETURN`) on the failing
  path, otherwise fall through to the rest of the body.
-/
def Prog.exec : Prog → ExecState → Result × ExecState
  | .rret r, st => rretStep r st
  | .reg k rest, st =>
      let hasPrevRef := st.cur.isSome
      let prevRefCell := st.cells.length
      let tmpCell := st.cells.length + 1
      let newCur := if hasPrevRef then prevRefCell else tmpCell
      Prog.exec rest
        { cells := st.cells ++ [st.read, ResultSuccess]
          cur := some newCur
          guards := st.guards ++ [⟨k, newCur⟩] }
  | .rtry r rest, st =>
      if R_FAILED r then rretStep r st else Prog.exec rest st
  | .runless c e rest, st =>
      if !c then rretStep e st else Prog.exec rest st

/-- Runs a complete function activation from a fresh frame. -/
def Prog.run (p : Prog) : Result × ExecState :=
  p.exec ExecState.init

/-- Whether a registered guard's destructor runs its action at scope exit:
`if (EvaluateResult(m_ref)) { m_f(); }` evaluated on the guard's cell in the
final storage.  Destruction happens once per guard, so the action runs at
most once, exactly when this predicate holds. -/
def guardFires (st : ExecState) (g : GuardEntry) : Bool :=
  g.kind.pred (st.cells.getD g.cell ResultSuccess)

/-- The guards whose actions run at scope exit, in destructor (reverse
registration) order. -/
def firedGuards (st : ExecState) : List GuardEntry :=
  st.guards.reverse.filter (guardFires st)

/-- `true` when a body registers no scoped guard (no `ON_RESULT_FAILURE` /
`ON_RESULT_SUCCESS` in it). -/
def Prog.guardFree : Prog → Bool
  | .rret _ => true
  | .reg _ _ => false
  | .rtry _ rest => rest.guardFree
  | .runless _ _ rest => rest.guardFree

/-! ### Arithmetic lemmas about the bit-field operations -/

theorem BitField.FormatValue_eq (position bits v : Nat) :
    BitField.FormatValue position bits v = v % 2 ^ bits * 2 ^ position := by
  rw [← Nat.shiftLeft_eq]
  apply Nat.eq_of_testBit_eq
  intro i
  simp only [BitField.FormatValue, Nat.shiftLeft_eq 1, Nat.one_mul,
    Nat.testBit_and, Nat.testBit_shiftLeft, Nat.testBit_two_pow_sub_one,
    Nat.testBit_mod_two_pow]
  by_cases hp : position ≤ i <;> by_cases hb : i - position < bits <;>
    simp [hp, hb]

theorem BitField.Value_eq (position bits s : Nat) :
    BitField.Value position bits s = s / 2 ^ position % 2 ^ bits := by
  rw [← Nat.shiftRight_eq_div_pow]
  apply Nat.eq_of_testBit_eq
  intro i
  simp only [BitField.Value, Nat.shiftLeft_eq 1, Nat.one_mul,
    Nat.testBit_shiftRight, Nat.testBit_and, Nat.testBit_shiftLeft,
    Nat.testBit_two_pow_sub_one, Nat.testBit_mod_two_pow]
  by_cases hb : i < bits <;>
    simp [hb, Nat.add_sub_cancel_left, Nat.le_add_right, Bool.and_comm]

theorem lor_mod_two_pow (a b n : Nat) :
    (a ||| b) % 2 ^ n = a % 2 ^ n ||| b % 2 ^ n := by
  apply Nat.eq_of_testBit_eq
  intro i
  simp only [Nat.testBit_mod_two_pow, Nat.testBit_or]
  by_cases h : i < n <;> simp [h]

theorem lor_div_two_pow (a b n : Nat) :
    (a ||| b) / 2 ^ n = a / 2 ^ n ||| b / 2 ^ n := by
  simp only [← Nat.shiftRight_eq_div_pow]
  apply Nat.eq_of_testBit_eq
  intro i
  simp [Nat.testBit_shiftRight, Nat.testBit_or]

/-- Bitwise-or of values with disjoint bit support is addition: the low
`p` bits come from `a`, the rest from `c`. -/
theorem lor_mul_two_pow_eq_add {a : Nat} (c p : Nat) (h : a < 2 ^ p) :
    a ||| c * 2 ^ p = a + c * 2 ^ p := by
  have hmod : (a ||| c * 2 ^ p) % 2 ^ p = a := by
    rw [lor_mod_two_pow, Nat.mod_eq_of_lt h, Nat.mul_mod_left]
    simp
  have hdiv : (a ||| c * 2 ^ p) / 2 ^ p = c := by
    rw [lor_div_two_pow, Nat.div_eq_of_lt h,
      Nat.mul_div_cancel c (Nat.two_pow_pos p)]
    simp
  have hx := Nat.div_add_mod (a ||| c * 2 ^ p) (2 ^ p)
  rw [hdiv, hmod] at hx
  rw [← hx]
  ring

theorem Result.raw_ofFields (m d : Nat) :
    (Result.ofFields m d).raw = m % 512 + d % 8192 * 512 := by
  show BitField.FormatValue 0 9 m ||| BitField.FormatValue 9 13 d = _
  rw [BitField.FormatValue_eq, BitField.FormatValue_eq]
  norm_num
  exact lor_mul_two_pow_eq_add _ 9 (by omega)

theorem Result.module_eq (r : Result) : r.module = r.raw % 512 := by
  show BitField.Value 0 9 r.raw = _
  rw [BitField.Value_eq]
  norm_num

theorem Result.description_eq (r : Result) :
    r.description = r.raw / 512 % 8192 := by
  show BitField.Value 9 13 r.raw = _
  rw [BitField.Value_eq]
  norm_num

/-- `GetInnerValue` reassembles exactly the low 22 bits of `raw`. -/
theorem Result.GetInnerValue_eq (r : Result) :
    r.GetInnerValue = r.raw % 4194304 := by
  show r.module ||| (r.description <<< 9) = _
  rw [Result.module_eq, Result.description_eq, Nat.shiftLeft_eq]
  have h := lor_mul_two_pow_eq_add (a := r.raw % 512)
    (r.raw / 512 % 8192) 9 (by norm_num [Nat.mod_lt])
  rw [h, show (2 : Nat) ^ 9 = 512 from by norm_num]
  clear h
  omega

theorem Result.raw_ofFields_of_lt {m d : Nat} (hm : m < 512) (hd : d < 8192) :
    (Result.ofFields m d).raw = m + d * 512 := by
  rw [Result.raw_ofFields, Nat.mod_eq_of_lt hm, Nat.mod_eq_of_lt hd]

theorem Result.module_ofFields {m d : Nat} (hm : m < 512) (hd : d < 8192) :
    (Result.ofFields m d).module = m := by
  rw [Result.module_eq, Result.raw_ofFields_of_lt hm hd]
  omega

theorem Result.description_ofFields {m d : Nat} (hm : m < 512)
    (hd : d < 8192) : (Result.ofFields m d).description = d := by
  rw [Result.description_eq, Result.raw_ofFields_of_lt hm hd]
  omega

/-! ### Claim theorems -/

/-- **C1.** For every module value `m` in `[0,511]` and description value
`d` in `[0,8191]`, `Result(m, d)` produces a raw 32-bit word equal to
`m | (d << 9)` — module in the low 9 bits, description in bits 9..21, bits
22..31 zero — and reading back the module and description bit-fields
yields exactly `(m, d)`; in particular
`Result(ErrorModule::FS, 42).raw == 42<<9 | 2` with `FS == 2`. -/
theorem result_pack_unpack_roundtrip (m d : Nat) (hm : m < 512)
    (hd : d < 8192) :
    (Result.ofFields m d).raw = (m ||| (d <<< 9))
    ∧ (Result.ofFields m d).raw = m + d * 512
    ∧ (Result.ofFields m d).raw < 4194304
    ∧ (Result.ofFields m d).module = m
    ∧ (Result.ofFields m d).description = d
    ∧ (Result.ofFields ErrorModule.FS 42).raw = (42 <<< 9 ||| 2)
    ∧ ErrorModule.FS = 2 := by
  have hraw := Result.raw_ofFields_of_lt hm hd
  refine ⟨?_, hraw, by omega, ?_, ?_, by decide, rfl⟩
  · rw [hraw, Nat.shiftLeft_eq,
      lor_mul_two_pow_eq_add d 9 (by norm_num [hm]),
      show (2 : Nat) ^ 9 = 512 from by norm_num]
  · rw [Result.module_eq, hraw]
    omega
  · rw [Result.description_eq, hraw]
    omega

theorem result_pack_unpack_roundtrip_witness :
    2 < 512 ∧ 42 < 8192 ∧ (Result.ofFields 2 42).module = 2 ∧
      (Result.ofFields 2 42).description = 42 :=
  ⟨by decide, by decide,
    (result_pack_unpack_roundtrip 2 42 (by decide) (by decide)).2.2.2.1,
    (result_pack_unpack_roundtrip 2 42 (by decide) (by decide)).2.2.2.2.1⟩

/-- **C2.** `Result(ErrorModule::Common, 0)` has `raw == 0` and this is the
unique success value: `IsSuccess(r)` holds iff `r.raw == 0` (so it is
false for every in-range `(m,d) ≠ (0,0)`), exactly one of `IsSuccess` and
`IsFailure` holds, and the constant `ResultSuccess` is the all-zero
word. -/
theorem success_is_unique_zero_word (m d : Nat) (r : Result) (hm : m < 512)
    (hd : d < 8192) :
    (Result.ofFields ErrorModule.Common 0).raw = 0
    ∧ ResultSuccess.raw = 0
    ∧ (r.IsSuccess = true ↔ r.raw = 0)
    ∧ ((m, d) ≠ (0, 0) → (Result.ofFields m d).IsSuccess = false)
    ∧ ((r.IsSuccess = true ∧ r.IsFailure = false)
        ∨ (r.IsSuccess = false ∧ r.IsFailure = true)) := by
  refine ⟨by decide, rfl, by simp [Result.IsSuccess], ?_, ?_⟩
  · intro hne
    have hraw := Result.raw_ofFields_of_lt hm hd
    have : ¬(m = 0 ∧ d = 0) := by simpa [Prod.ext_iff] using hne
    simp only [Result.IsSuccess, beq_eq_false_iff_ne, ne_eq, hraw]
    omega
  · simp only [Result.IsFailure]
    cases h : r.IsSuccess <;> simp [h]

theorem success_is_unique_zero_word_witness :
    2 < 512 ∧ 42 < 8192 ∧ (Result.ofFields 2 42).IsSuccess = false :=
  ⟨by decide, by decide,
    (success_is_unique_zero_word 2 42 ResultSuccess (by decide)
      (by decide)).2.2.2.1 (by decide)⟩

/-- **C9.** `a.Includes(b)` is an exact-equality check over the packed
semantic fields: it holds iff `a`'s module and description bit-fields
equal `b`'s, equivalently iff `a.raw` and `b.raw` agree on the low 22
bits. -/
theorem result_includes_is_exact_field_equality (a b : Result) :
    (a.Includes b = true ↔ (a.module = b.module ∧ a.description = b.description))
    ∧ (a.Includes b = true ↔ a.raw % 4194304 = b.raw % 4194304) := by
  have hdda : a.raw / 512 / 8192 = a.raw / 4194304 := by
    rw [Nat.div_div_eq_div_mul]
  have hddb : b.raw / 512 / 8192 = b.raw / 4194304 := by
    rw [Nat.div_div_eq_div_mul]
  simp only [Result.Includes, beq_iff_eq, Result.GetInnerValue_eq,
    Result.module_eq, Result.description_eq]
  refine ⟨?_, trivial⟩
  omega

/-- **C7.** `ResultRange(M, lo, hi).Includes(r)` is true iff `r`'s module
field equals `M` and `lo ≤ r.description ≤ hi`; it is false for every
`Result` whose module differs from `M`, regardless of description. -/
theorem resultRange_includes_iff (M lo hi : Nat) (r : Result) (hM : M < 512)
    (hlo : lo < 8192) :
    ((ResultRange.ofFields M lo hi).Includes r = true ↔
      (r.module = M ∧ lo ≤ r.description ∧ r.description ≤ hi))
    ∧ (r.module ≠ M → (ResultRange.ofFields M lo hi).Includes r = false) := by
  have hmod : (ResultRange.ofFields M lo hi).code.module = M :=
    Result.module_ofFields hM hlo
  have hdesc : (ResultRange.ofFields M lo hi).code.description = lo :=
    Result.description_ofFields hM hlo
  have hiff : (ResultRange.ofFields M lo hi).Includes r = true ↔
      (r.module = M ∧ lo ≤ r.description ∧ r.description ≤ hi) := by
    simp only [ResultRange.Includes, Bool.and_eq_true, beq_iff_eq,
      decide_eq_true_eq, hmod, hdesc]
    constructor
    · rintro ⟨⟨h1, h2⟩, h3⟩
      exact ⟨h1.symm, h2, h3⟩
    · rintro ⟨h1, h2, h3⟩
      exact ⟨⟨h1.symm, h2⟩, h3⟩
  refine ⟨hiff, fun hne => ?_⟩
  cases hInc : (ResultRange.ofFields M lo hi).Includes r with
  | false => rfl
  | true => exact absurd (hiff.mp hInc).1 hne

theorem resultRange_includes_iff_witness :
    2 < 512 ∧ 10 < 8192 ∧
      (ResultRange.ofFields 2 10 20).Includes (Result.ofFields 2 15) = true :=
  ⟨by decide, by decide,
    (resultRange_includes_iff 2 10 20 (Result.ofFields 2 15) (by decide)
      (by decide)).1.mpr (by decide)⟩

/-- **C8.** The implicit conversion of `ResultRange(M, lo, hi)` to
`Result` always yields exactly `Result(M, lo)` — the range's lower
bound — and never any other description in the range. -/
theorem resultRange_to_result_is_lower_bound (M lo hi : Nat) (hM : M < 512)
    (hlo : lo < 8192) :
    (ResultRange.ofFields M lo hi).toResult = Result.ofFields M lo
    ∧ (ResultRange.ofFields M lo hi).toResult.module = M
    ∧ (ResultRange.ofFields M lo hi).toResult.description = lo
    ∧ (∀ d : Nat, lo < d → d ≤ hi → d < 8192 →
        (ResultRange.ofFields M lo hi).toResult ≠ Result.ofFields M d) := by
  refine ⟨rfl, Result.module_ofFields hM hlo,
    Result.description_ofFields hM hlo, ?_⟩
  intro d hlt hhi hd heq
  have h1 : (Result.ofFields M lo).description = lo :=
    Result.description_ofFields hM hlo
  have h2 : (Result.ofFields M d).description = d :=
    Result.description_ofFields hM hd
  rw [show (ResultRange.ofFields M lo hi).toResult = Result.ofFields M lo
    from rfl] at heq
  rw [heq] at h1
  omega

theorem resultRange_to_result_is_lower_bound_witness :
    2 < 512 ∧ 10 < 8192 ∧
      (ResultRange.ofFields 2 10 20).toResult = Result.ofFields 2 10 ∧
      (ResultRange.ofFields 2 10 20).toResult ≠ Result.ofFields 2 15 :=
  ⟨by decide, by decide,
    (resultRange_to_result_is_lower_bound 2 10 20 (by decide) (by decide)).1,
    (resultRange_to_result_is_lower_bound 2 10 20 (by decide)
      (by decide)).2.2.2 15 (by decide) (by decide) (by decide)⟩



/-- **C5.** A `ResultVal<T>` constructed from a failure code `E`
(`E != ResultSuccess`) satisfies `Failed() == true`,
`Succeeded() == false`, `operator bool == false`, and `Code() == E`
unchanged; `Unwrap()` on it hits the assertion (modelled as `none`,
never a value). -/
theorem resultVal_failure_state (T : Type) (E : Result)
    (hE : E ≠ ResultSuccess) :
    (ResultVal.ofResult (T := T) E).Failed = true
    ∧ (ResultVal.ofResult (T := T) E).Succeeded = false
    ∧ (ResultVal.ofResult (T := T) E).toBool = false
    ∧ (ResultVal.ofResult (T := T) E).Code = E
    ∧ (ResultVal.ofResult (T := T) E).Unwrap = none := by
  refine ⟨rfl, rfl, rfl, rfl, rfl⟩

theorem resultVal_failure_state_witness :
    Result.ofFields 2 42 ≠ ResultSuccess
    ∧ (ResultVal.ofResult (T := Nat) (Result.ofFields 2 42)).Failed = true :=
  ⟨by decide,
    (resultVal_failure_state Nat (Result.ofFields 2 42) (by decide)).1⟩

/-- **C6.** A `ResultVal<T>` constructed from a value `v` satisfies
`Succeeded() == true`, `operator bool == true`, `Code() == ResultSuccess`,
and `Unwrap()` returns `v` unchanged; `ValueOr(default)` also returns
`v`, ignoring the fallback. -/
theorem resultVal_value_roundtrip (T : Type) (v fallback : T) :
    (ResultVal.ofValue v).Succeeded = true
    ∧ (ResultVal.ofValue v).toBool = true
    ∧ (ResultVal.ofValue v).Code = ResultSuccess
    ∧ (ResultVal.ofValue v).Unwrap = some v
    ∧ (ResultVal.ofValue v).ValueOr fallback = v := by
  refine ⟨rfl, rfl, rfl, rfl, rfl⟩

/-- **C10.** Constructing a `ResultVal<T>` from a `Result` equal to
`ResultSuccess` is accepted and yields an object in the failure state
(`Succeeded() == false`, `Failed() == true`, `operator bool == false`)
whose `Code()` nevertheless returns `ResultSuccess`, so `Code()` alone
cannot distinguish it from a genuine success. -/
theorem resultVal_success_code_is_ambiguous (T : Type) (v : T) :
    (ResultVal.ofResult (T := T) ResultSuccess).Succeeded = false
    ∧ (ResultVal.ofResult (T := T) ResultSuccess).Failed = true
    ∧ (ResultVal.ofResult (T := T) ResultSuccess).toBool = false
    ∧ (ResultVal.ofResult (T := T) ResultSuccess).Code = ResultSuccess
    ∧ (ResultVal.ofValue v).Code = ResultSuccess
    ∧ (ResultVal.ofResult (T := T) ResultSuccess).Code
        = (ResultVal.ofValue v).Code := by
  refine ⟨rfl, rfl, rfl, rfl, rfl, rfl⟩

theorem rretStep_fst (r : Result) (st : ExecState) :
    (rretStep r st).1 = r := by
  cases h : st.cur <;> simp [rretStep, h]

/-- **C4.** Try-propagate is an identity on failures: if the
sub-operation yields a failure `E`, the enclosing function returns
exactly `E` unchanged (under `R_TRY`, `CASCADE_CODE`, or
`CASCADE_RESULT`), regardless of the statements after the propagation
point; if the sub-operation succeeds, execution continues with the rest
of the body (the unwrapped value bound to the target for
`CASCADE_RESULT`). -/
theorem try_propagates_failures_unchanged (E S : Result)
    (hE : E.IsFailure = true) (hS : S.IsFailure = false) :
    (∀ rest : Unit → Result, R_TRY E rest = E)
    ∧ (∀ rest : Unit → Result, R_TRY S rest = rest ())
    ∧ (∀ rest : Unit → Result, CASCADE_CODE E rest = E)
    ∧ (∀ rest : Unit → Result, CASCADE_CODE S rest = rest ())
    ∧ (∀ (T : Type) (rest : T → Result),
        CASCADE_RESULT (ResultVal.ofResult (T := T) E) rest = E)
    ∧ (∀ (T : Type) (v : T) (rest : T → Result),
        CASCADE_RESULT (ResultVal.ofValue v) rest = rest v)
    ∧ (∀ (rest : Prog) (st : ExecState),
        (Prog.exec (.rtry E rest) st).1 = E)
    ∧ (∀ (rest : Prog) (st : ExecState),
        Prog.exec (.rtry S rest) st = Prog.exec rest st) := by
  have hSE : S.IsError = false := hS
  refine ⟨fun rest => ?_, fun rest => ?_, fun rest => ?_, fun rest => ?_,
    fun T rest => rfl, fun T v rest => rfl, fun rest st => ?_,
    fun rest st => ?_⟩
  · simp [R_TRY, R_FAILED, hE]
  · simp [R_TRY, R_FAILED, hS]
  · simp [CASCADE_CODE, hSE, Result.IsError, Result.IsFailure] at *
    simp [hE]
  · simp [CASCADE_CODE, hSE]
  · simp [Prog.exec, R_FAILED, hE, rretStep_fst]
  · simp [Prog.exec, R_FAILED, hS]

theorem try_propagates_failures_unchanged_witness :
    (Result.ofFields 2 42).IsFailure = true
    ∧ ResultSuccess.IsFailure = false
    ∧ R_TRY (Result.ofFields 2 42) (fun _ => ResultSuccess)
        = Result.ofFields 2 42 :=
  ⟨by decide, by decide,
    (try_propagates_failures_unchanged (Result.ofFields 2 42) ResultSuccess
      (by decide) (by decide)).1 (fun _ => ResultSuccess)⟩

/-- Executing a guard-free body leaves the guard list and the current
reference untouched, and stores the returned value in the cell the
current reference designates (every path ends in an `R_RETURN` through
that reference). -/
theorem exec_guardFree_stores_retval (body : Prog) (hb : body.guardFree = true)
    (st : ExecState) (i : Nat) (hcur : st.cur = some i)
    (hi : i < st.cells.length) :
    (body.exec st).2.cells.getD i ResultSuccess = (body.exec st).1
    ∧ (body.exec st).2.guards = st.guards := by
  induction body with
  | rret r =>
      simp only [Prog.exec, rretStep, hcur]
      constructor
      · simp [List.getD_eq_getElem?_getD, List.getElem?_set_self hi]
      · trivial
  | reg k rest ih =>
      simp [Prog.guardFree] at hb
  | rtry r rest ih =>
      simp only [Prog.guardFree] at hb
      simp only [Prog.exec]
      by_cases hf : R_FAILED r
      · simp only [hf, if_true, rretStep, hcur]
        constructor
        · simp [List.getD_eq_getElem?_getD, List.getElem?_set_self hi]
        · trivial
      · simp only [hf, if_false]
        exact ih hb
  | runless c e rest ih =>
      simp only [Prog.guardFree] at hb
      simp only [Prog.exec]
      by_cases hc : !c
      · simp only [hc, if_true, rretStep, hcur]
        constructor
        · simp [List.getD_eq_getElem?_getD, List.getElem?_set_self hi]
        · trivial
      · simp only [hc, if_false]
        exact ih hb

/-- **C3 (amended).** For a function activation that registers a single
scoped outcome guard via `ON_RESULT_FAILURE` / `ON_RESULT_SUCCESS`, the
guard is registered exactly once, fires at scope exit exactly when its
polarity matches the function's final `Result` value (the one stored by
whichever `R_RETURN` / `R_THROW` was taken, even with multiple return
points): an on-failure guard never runs when the activation returns
success, an on-success guard never runs when it returns failure, and the
fired-guard list is the singleton holding the guard precisely when the
polarity matches.  (The unamended claim over *every* registered guard is
refuted by `scoped_guard_stale_counterexample`: an earlier guard's
reference is decoupled by the `PrevRef` copy the next registration
makes.) -/
theorem scoped_guard_single_fires_iff_final_polarity (k : GuardKind)
    (body : Prog) (hb : body.guardFree = true) :
    (Prog.run (.reg k body)).2.guards = [⟨k, 1⟩]
    ∧ guardFires (Prog.run (.reg k body)).2 ⟨k, 1⟩
        = k.pred (Prog.run (.reg k body)).1
    ∧ firedGuards (Prog.run (.reg k body)).2
        = (if k.pred (Prog.run (.reg k body)).1 then [⟨k, 1⟩] else []) := by
  have hrun : Prog.run (.reg k body)
      = Prog.exec body ⟨[ResultSuccess, ResultSuccess], some 1, [⟨k, 1⟩]⟩ :=
    rfl
  obtain ⟨hcell, hguards⟩ := exec_guardFree_stores_retval body hb
    ⟨[ResultSuccess, ResultSuccess], some 1, [⟨k, 1⟩]⟩ 1 rfl (by simp)
  rw [hrun]
  refine ⟨hguards, ?_, ?_⟩
  · simp only [guardFires, hcell]
  · simp only [firedGuards, hguards, List.reverse_singleton,
      List.filter_cons, List.filter_nil, guardFires, hcell]

theorem scoped_guard_single_fires_iff_final_polarity_witness :
    (Prog.rtry (Result.ofFields 2 42) (.rret ResultSuccess)).guardFree = true
    ∧ (Prog.run (.reg .onFailure
        (.rtry (Result.ofFields 2 42) (.rret ResultSuccess)))).2.guards
      = [⟨.onFailure, 1⟩] :=
  ⟨by decide,
    (scoped_guard_single_fires_iff_final_polarity .onFailure
      (.rtry (Result.ofFields 2 42) (.rret ResultSuccess)) (by decide)).1⟩

/-- **C3 (counterexample).** The claim as stated fails for an activation
that registers two guards: here both guards are registered via
`ON_RESULT_SUCCESS` and the function finally returns the failure
`Result(FS, 42)` through `R_RETURN`, yet the first registered on-success
guard still fires — its reference was left pointing at the stale
`ResultSuccess` copy (`PrevRef_N`) taken when the second guard's
`DECLARE_CURRENT_RESULT_REFERENCE_AND_STORAGE` rebound
`__TmpCurrentResultReference`. -/
theorem scoped_guard_stale_counterexample :
    (Prog.run (.reg .onSuccess (.reg .onSuccess
        (.rret (Result.ofFields 2 42))))).1.IsFailure = true
    ∧ (Prog.run (.reg .onSuccess (.reg .onSuccess
        (.rret (Result.ofFields 2 42))))).2.guards
      = [⟨.onSuccess, 1⟩, ⟨.onSuccess, 2⟩]
    ∧ guardFires (Prog.run (.reg .onSuccess (.reg .onSuccess
        (.rret (Result.ofFields 2 42))))).2 ⟨.onSuccess, 1⟩ = true := by
  refine ⟨by decide, by decide, by decide⟩
